import Mathlib

/-!
Shallow embedding of the deck builder engine (DeckBuilder component):
deck composition, lifecycle state machine, zone transitions and the
play selection protocol, together with proofs of the specified
invariants and functional-correctness properties.

Conventions of the embedding:
* JS objects used as count maps (`baseCounts`, `modCounts`) become
  association lists `List (String × Nat)` with the insertion order of
  `Object.entries` preserved; `m[id] ?? 0` becomes `lookupCount`.
* `Math.random`-driven shuffles take an explicit list of random
  numbers (`js : List Nat`); the index chosen at step `i` is
  `j % (i+1)`, covering exactly the range `Math.floor(random*(i+1))`.
* React `setState` updaters become pure functions
  `DeckBuilderState → DeckBuilderState`; the separate `opsError`
  React state is carried as a field of the state record.
-/

/-- A catalog card; only the fields the engine consults are kept
(`cost` is `card.cost ?? 0`). -/
structure Card where
  id : String
  cost : Nat
deriving DecidableEq, Repr

/-- Play state of a card in the hand zone. -/
inductive HandState where
  | unspent
  | played
deriving DecidableEq, Repr

/-- Origin tag of a card in the discard zone. -/
inductive DiscardOrigin where
  | played
  | discarded
deriving DecidableEq, Repr

/-- An entry of the hand zone: `{ id, state }`. -/
structure HandEntry where
  id : String
  state : HandState
deriving DecidableEq, Repr

/-- An entry of the discard zone: `{ id, origin }`. -/
structure DiscardEntry where
  id : String
  origin : DiscardOrigin
deriving DecidableEq, Repr

/-- The mutable builder state (`DeckBuilderState` plus the component-level
`hasBuiltDeck`/`hasShuffledDeck`/`opsError` React states, which the code
keeps in sync with the record). -/
structure DeckBuilderState where
  baseCounts : List (String × Nat)
  modCounts : List (String × Nat)
  nullCount : Nat
  modifierCapacity : Nat
  deck : List String
  hand : List HandEntry
  discard : List DiscardEntry
  isLocked : Bool
  hasBuiltDeck : Bool
  hasShuffledDeck : Bool
  handLimit : Nat
  opsError : Option String
deriving DecidableEq, Repr

/-- Configuration of a `DeckBuilder` instance: the props and catalog
data that the engine closes over. -/
structure Ctx where
  baseTarget : Nat
  minNulls : Nat
  simpleCounters : Bool
  modCapacityAsCount : Bool
  modCards : List Card
  nullId : Option String
deriving DecidableEq, Repr

/-- JS `clamp(value, min)` for an integer value with a `Nat` floor. -/
def clampIntNat (v : Int) (lo : Nat) : Nat :=
  if v < lo then lo else v.toNat

/-- JS `clamp(value, min, max)` with `Nat` bounds. -/
def clampIntRange (v : Int) (lo hi : Nat) : Nat :=
  if v < lo then lo else if v > hi then hi else v.toNat

/-- `counts[id] ?? 0`. -/
def lookupCount (m : List (String × Nat)) (id : String) : Nat :=
  match m.find? (fun p => p.1 == id) with
  | some p => p.2
  | none => 0

/-- `{ ...counts, [id]: v }`: replace the value at an existing key
(position preserved), else append the new key. -/
def setCount (m : List (String × Nat)) (id : String) (v : Nat) : List (String × Nat) :=
  if m.any (fun p => p.1 == id) then
    m.map (fun p => if p.1 == id then (p.1, v) else p)
  else
    m ++ [(id, v)]

/-- `sumCounts`: sum of the values of a count map. -/
def sumCounts (m : List (String × Nat)) : Nat :=
  (m.map (fun p => p.2)).sum

/-- Swap two positions of a list; out-of-range indices leave the list
unchanged (mirrors JS array destructuring assignment on valid indices). -/
def listSwap (l : List α) (i j : Nat) : List α :=
  match l[i]?, l[j]? with
  | some a, some b => (l.set i b).set j a
  | _, _ => l

/-- The Fisher–Yates loop of `shuffleInPlace`: at index `i` (counting
down from `length-1` to `1`) swap positions `i` and `j % (i+1)` where
`j` is the next random number. -/
def fisherYatesAux : List α → Nat → List Nat → List α
  | l, _, [] => l
  | l, 0, _ => l
  | l, i+1, j :: js => fisherYatesAux (listSwap l (i+1) (j % (i+2))) i js

/-- `shuffleInPlace(arr)` with the stream of random draws made explicit. -/
def shuffleInPlace (l : List α) (js : List Nat) : List α :=
  fisherYatesAux l (l.length - 1) js

/-- `buildDeckArray()`: each base id repeated by its count, then each
modifier id repeated by its count, then the null id repeated
`nullCount` times (when a null card exists). -/
def buildDeckArray (ctx : Ctx) (s : DeckBuilderState) : List String :=
  (s.baseCounts.map (fun p => List.replicate p.2 p.1)).flatten ++
  (s.modCounts.map (fun p => List.replicate p.2 p.1)).flatten ++
  (match ctx.nullId with
   | some nid => List.replicate s.nullCount nid
   | none => [])

/-- `draw()`: only when locked and below the hand limit; pops the tail
of the deck into the hand as `unspent`, or reports deck depletion.
The `cardId = ""` case mirrors the falsy guard `if (!cardId)`. -/
def draw (s : DeckBuilderState) : DeckBuilderState :=
  if !s.isLocked then s
  else if s.hand.length ≥ s.handLimit then s
  else
    match s.deck.getLast? with
    | none => { s with opsError := some "Deck depleted. Refill or rebuild to continue drawing." }
    | some cardId =>
      if cardId = "" then
        { s with opsError := some "Deck depleted. Refill or rebuild to continue drawing." }
      else
        { s with
          deck := s.deck.dropLast,
          hand := s.hand ++ [⟨cardId, HandState.unspent⟩],
          opsError := none }

/-- `handleDraw()`: precondition checks in the fixed order
lock → build → shuffle, each with its own message, then `draw()`. -/
def handleDraw (s : DeckBuilderState) : DeckBuilderState :=
  if !s.isLocked then { s with opsError := some "Lock the deck before drawing." }
  else if !s.hasBuiltDeck then { s with opsError := some "Build the deck before drawing." }
  else if !s.hasShuffledDeck then { s with opsError := some "Shuffle the deck before drawing." }
  else draw s

/-- `shuffleDeck()`: a re-shuffle of an already-shuffled deck requires
confirmation (no-op when declined); otherwise permutes a nonempty deck
and sets `hasShuffledDeck`. -/
def shuffleDeck (s : DeckBuilderState) (js : List Nat) (confirmed : Bool) : DeckBuilderState :=
  if s.hasShuffledDeck && !confirmed then s
  else
    { s with
      deck := if s.deck.length ≠ 0 then shuffleInPlace s.deck js else s.deck,
      hasShuffledDeck := true,
      opsError := none }

/-- `toggleLockDeck()`: locking materializes a shuffled deck from the
counts, clears hand/discard, sets built, clears shuffled and surfaces
the shuffle notice; on a locked state it unlocks instead. -/
def toggleLockDeck (ctx : Ctx) (s : DeckBuilderState) (js : List Nat) : DeckBuilderState :=
  if !s.isLocked then
    { s with
      isLocked := true,
      deck := shuffleInPlace (buildDeckArray ctx s) js,
      hand := [],
      discard := [],
      hasBuiltDeck := true,
      hasShuffledDeck := false,
      opsError := some "Shuffle the deck before drawing." }
  else
    { s with
      isLocked := false,
      hasBuiltDeck := false,
      hasShuffledDeck := false,
      opsError := none }

/-- Loop body of `discardFromDeck(count)`: pop up to `count` cards off
the deck tail into the discard with origin `discarded`. The falsy
guard `if (!cardId) break` fires only after `deck.pop()` has already
mutated the committed deck copy, so an empty-string card id is removed
from the deck without being pushed to the discard. -/
def discardFromDeckLoop : List String → List DiscardEntry → Nat → List String × List DiscardEntry
  | deck, discard, 0 => (deck, discard)
  | deck, discard, n+1 =>
    match deck.getLast? with
    | none => (deck, discard)
    | some c =>
      if c = "" then (deck.dropLast, discard)
      else discardFromDeckLoop deck.dropLast (discard ++ [⟨c, DiscardOrigin.discarded⟩]) n

/-- `discardFromDeck(count)`. -/
def discardFromDeck (s : DeckBuilderState) (count : Nat) : DeckBuilderState :=
  let p := discardFromDeckLoop s.deck s.discard count
  { s with deck := p.1, discard := p.2 }

/-- `returnDiscardToDeck(shuffle, toTop)`: all discard ids move back
into the deck (optionally shuffled, appended or prepended, and the
whole deck reshuffled); the discard empties unconditionally. -/
def returnDiscardToDeck (s : DeckBuilderState) (shuffle toTop : Bool)
    (js1 js2 : List Nat) : DeckBuilderState :=
  let ids := s.discard.map (fun d => d.id)
  let ids2 := if shuffle then shuffleInPlace ids js1 else ids
  let deck2 := if toTop then s.deck ++ ids2 else ids2 ++ s.deck
  let deck3 := if shuffle then shuffleInPlace deck2 js2 else deck2
  { s with deck := deck3, discard := [] }

/-- `returnDiscardGroupToDeck(cardId, all)`: move all or the first
discard entry with the given id to the deck tail. -/
def returnDiscardGroupToDeck (s : DeckBuilderState) (cardId : String) (all : Bool) :
    DeckBuilderState :=
  if all then
    let idsToMove := (s.discard.filter (fun d => d.id == cardId)).map (fun d => d.id)
    let remaining := s.discard.filter (fun d => !(d.id == cardId))
    { s with discard := remaining, deck := s.deck ++ idsToMove }
  else
    match s.discard.find? (fun d => d.id == cardId) with
    | none => s
    | some it =>
      { s with
        discard := s.discard.eraseP (fun d => d.id == cardId),
        deck := s.deck ++ [it.id] }

/-- `returnDiscardItemToHand(idx)`: blocked at the hand limit, else
move the indexed discard entry into the hand as `unspent`. -/
def returnDiscardItemToHand (s : DeckBuilderState) (idx : Nat) : DeckBuilderState :=
  if s.hand.length ≥ s.handLimit then s
  else
    match s.discard[idx]? with
    | none => s
    | some it =>
      { s with
        discard := s.discard.eraseIdx idx,
        hand := s.hand ++ [⟨it.id, HandState.unspent⟩] }

/-- Loop of `returnDiscardGroupToHand`, acting on the reversed discard
(the source scans from the last index down): take matching entries
while space remains; a non-`all` call stops after the first match. -/
def grabRev (cardId : String) (all : Bool) :
    List DiscardEntry → Nat → List DiscardEntry × List DiscardEntry
  | [], _ => ([], [])
  | d :: rest, sp =>
    if sp = 0 then (d :: rest, [])
    else if d.id == cardId then
      if all then
        let p := grabRev cardId all rest (sp - 1)
        (p.1, d :: p.2)
      else (rest, [d])
    else
      let p := grabRev cardId all rest sp
      (d :: p.1, p.2)

/-- `returnDiscardGroupToHand(cardId, all)`: moves matching discard
entries (most recently discarded first) into the hand as `unspent`,
capped by the remaining hand space; no-op when no space or no match. -/
def returnDiscardGroupToHand (s : DeckBuilderState) (cardId : String) (all : Bool) :
    DeckBuilderState :=
  let space := s.handLimit - s.hand.length
  if space = 0 then s
  else
    let p := grabRev cardId all s.discard.reverse space
    if p.2 = [] then s
    else
      { s with
        discard := p.1.reverse,
        hand := s.hand ++ p.2.map (fun m => ⟨m.id, HandState.unspent⟩) }

/-- `discardGroupFromHand(cardId, all, origin)`: move all matching hand
entries (collected scanning from the end) or the first matching entry
into the discard tagged with `origin`; no-op when nothing matches. -/
def discardGroupFromHand (s : DeckBuilderState) (cardId : String) (all : Bool)
    (origin : DiscardOrigin) : DeckBuilderState :=
  let removed :=
    if all then (s.hand.filter (fun h => h.id == cardId)).reverse
    else
      match s.hand.find? (fun h => h.id == cardId) with
      | some h => [h]
      | none => []
  if removed = [] then s
  else
    let hand2 :=
      if all then s.hand.filter (fun h => !(h.id == cardId))
      else s.hand.eraseP (fun h => h.id == cardId)
    { s with
      hand := hand2,
      discard := s.discard ++ removed.map (fun r => ⟨r.id, origin⟩) }

/-- The `handLimit` input `onChange`: a non-numeric entry keeps the
previous limit, a numeric one is clamped to `[0, MAX_HAND_LIMIT]`. -/
def setHandLimit (s : DeckBuilderState) (n : Option Int) : DeckBuilderState :=
  match n with
  | none => s
  | some v => { s with handLimit := clampIntRange v 0 20 }

/-- Modelled from the spec: `getModCapacityUsed` (utils/modCapacity is
not under src/): cost-weighted modifier capacity usage, the sum over
modifier counts of count × that modifier's cost. -/
def getModCapacityUsed (modCards : List Card) (counts : List (String × Nat)) : Nat :=
  (counts.map (fun p =>
    p.2 * (match modCards.find? (fun c => c.id == p.1) with
           | some c => c.cost
           | none => 0))).sum

/-- Modelled from the spec: `canAddModCardFrom` (utils/modCapacity is
not under src/): under the cost-weighted policy a card can be added
iff current usage plus its cost stays within the capacity. -/
def canAddModCardFrom (modCards : List Card) (s : DeckBuilderState) (cardId : String) : Bool :=
  getModCapacityUsed modCards s.modCounts +
    (match modCards.find? (fun c => c.id == cardId) with
     | some c => c.cost
     | none => 0) ≤ s.modifierCapacity

/-- `getModUsedSnapshot(state)`: raw count or cost-weighted usage
depending on the capacity policy. -/
def getModUsedSnapshot (ctx : Ctx) (s : DeckBuilderState) : Nat :=
  if ctx.modCapacityAsCount then sumCounts s.modCounts
  else getModCapacityUsed ctx.modCards s.modCounts

/-- `canAddModCardSnapshot(state, cardId)`. -/
def canAddModCardSnapshot (ctx : Ctx) (s : DeckBuilderState) (cardId : String) : Bool :=
  if ctx.simpleCounters && ctx.modCapacityAsCount then true
  else if ctx.modCapacityAsCount then getModUsedSnapshot ctx s < s.modifierCapacity
  else canAddModCardFrom ctx.modCards s cardId

/-- `adjustBaseCount(cardId, delta)`: clamp at zero; in strict mode a
result total above `baseTarget` makes the call a no-op. There is no
lock guard inside this function. -/
def adjustBaseCount (ctx : Ctx) (s : DeckBuilderState) (cardId : String) (delta : Int) :
    DeckBuilderState :=
  let current := lookupCount s.baseCounts cardId
  let next := clampIntNat ((current : Int) + delta) 0
  let newTotal : Int := (sumCounts s.baseCounts : Int) - current + next
  if !ctx.simpleCounters && newTotal > ctx.baseTarget then s
  else { s with baseCounts := setCount s.baseCounts cardId next }

/-- `adjustModCount(cardId, delta)`: a no-op while locked; an increment
must pass the capacity snapshot check. -/
def adjustModCount (ctx : Ctx) (s : DeckBuilderState) (cardId : String) (delta : Int) :
    DeckBuilderState :=
  if s.isLocked then s
  else if delta > 0 && !canAddModCardSnapshot ctx s cardId then s
  else
    { s with
      modCounts := setCount s.modCounts cardId
        (clampIntNat ((lookupCount s.modCounts cardId : Int) + delta) 0) }

/-- `adjustNullCount(delta)`: clamps at `minNulls`; no lock guard
inside this function. -/
def adjustNullCount (ctx : Ctx) (s : DeckBuilderState) (delta : Int) : DeckBuilderState :=
  { s with nullCount := clampIntNat ((s.nullCount : Int) + delta) ctx.minNulls }

/-- `handleBaseIncrement(cardId)`: the UI tap handler; returns early
while locked. -/
def handleBaseIncrement (ctx : Ctx) (s : DeckBuilderState) (cardId : String) :
    DeckBuilderState :=
  if s.isLocked then s else adjustBaseCount ctx s cardId 1

/-- `handleModIncrement(cardId)`: the UI tap handler; returns early
while locked. -/
def handleModIncrement (ctx : Ctx) (s : DeckBuilderState) (cardId : String) :
    DeckBuilderState :=
  if s.isLocked then s else adjustModCount ctx s cardId 1

/-- `baseTotal`. -/
def baseTotal (s : DeckBuilderState) : Nat := sumCounts s.baseCounts

/-- `modCapacityUsed`. -/
def modCapacityUsed (ctx : Ctx) (s : DeckBuilderState) : Nat :=
  if ctx.modCapacityAsCount then sumCounts s.modCounts
  else getModCapacityUsed ctx.modCards s.modCounts

/-- `baseValid`. -/
def baseValid (ctx : Ctx) (s : DeckBuilderState) : Bool :=
  if ctx.simpleCounters then true else baseTotal s == ctx.baseTarget

/-- `nullValid`. -/
def nullValid (ctx : Ctx) (s : DeckBuilderState) : Bool :=
  ctx.minNulls ≤ s.nullCount

/-- `modValid`. -/
def modValid (ctx : Ctx) (s : DeckBuilderState) : Bool :=
  if ctx.simpleCounters && ctx.modCapacityAsCount then true
  else modCapacityUsed ctx s ≤ s.modifierCapacity

/-- `deckIsValid`. -/
def deckIsValid (ctx : Ctx) (s : DeckBuilderState) : Bool :=
  baseValid ctx s && nullValid ctx s && modValid ctx s

/-- An active play selection: one base plus an ordered set of attached
modifier ids. -/
structure ActivePlay where
  baseId : String
  mods : List String
deriving DecidableEq, Repr

/-- Modelled from the spec: `finalizeSelection` (utils/playFlow is not
under src/): a selection finalizes only when a base is set, so the
selection itself is returned when present and `null` otherwise. -/
def finalizeSelection (p : Option ActivePlay) : Option ActivePlay := p

/-- `finalizePlay()`: moves one copy of the base and of each attached
modifier from hand to discard with origin `played`, then clears
`activePlay`; no-op when there is no selection. -/
def finalizePlay (s : DeckBuilderState) (p : Option ActivePlay) :
    DeckBuilderState × Option ActivePlay :=
  match finalizeSelection p with
  | none => (s, p)
  | some sel =>
    let s1 := discardGroupFromHand s sel.baseId false DiscardOrigin.played
    let s2 := sel.mods.foldl
      (fun st m => discardGroupFromHand st m false DiscardOrigin.played) s1
    (s2, none)

/-- The multiset of card ids across the three zones. -/
def zoneMultiset (s : DeckBuilderState) : Multiset String :=
  (s.deck : Multiset String) +
  (s.hand.map (fun h => h.id) : Multiset String) +
  (s.discard.map (fun d => d.id) : Multiset String)

/-- The zone-transition operations quantified over by the conservation
property, with their random draws made explicit. -/
inductive ZoneOp where
  | draw
  | discardFromDeck (count : Nat)
  | discardFromHand (cardId : String) (all : Bool) (origin : DiscardOrigin)
  | returnDiscardToDeck (shuffle toTop : Bool) (js1 js2 : List Nat)
  | returnDiscardGroupToDeck (cardId : String) (all : Bool)
  | returnDiscardGroupToHand (cardId : String) (all : Bool)
  | returnDiscardItemToHand (idx : Nat)

/-- Interpretation of a `ZoneOp` on the builder state. -/
def applyZoneOp (s : DeckBuilderState) : ZoneOp → DeckBuilderState
  | ZoneOp.draw => draw s
  | ZoneOp.discardFromDeck count => discardFromDeck s count
  | ZoneOp.discardFromHand cardId all origin => discardGroupFromHand s cardId all origin
  | ZoneOp.returnDiscardToDeck shuffle toTop js1 js2 =>
    returnDiscardToDeck s shuffle toTop js1 js2
  | ZoneOp.returnDiscardGroupToDeck cardId all => returnDiscardGroupToDeck s cardId all
  | ZoneOp.returnDiscardGroupToHand cardId all => returnDiscardGroupToHand s cardId all
  | ZoneOp.returnDiscardItemToHand idx => returnDiscardItemToHand s idx

/-- A sequence of zone operations applied in order. -/
def applyZoneOps (s : DeckBuilderState) (ops : List ZoneOp) : DeckBuilderState :=
  ops.foldl applyZoneOp s

/-! ### Multiset helper lemmas -/

theorem coe_set_cons {α : Type} (l : List α) (n : Nat) (x a : α) (h : l[n]? = some a) :
    (a ::ₘ (↑(l.set n x) : Multiset α)) = x ::ₘ (↑l : Multiset α) := by
  induction l generalizing n with
  | nil => simp at h
  | cons y t ih =>
    cases n with
    | zero =>
      simp at h
      subst h
      simp only [List.set_cons_zero]
      rw [← Multiset.cons_coe, ← Multiset.cons_coe]
      exact Multiset.cons_swap y x (↑t)
    | succ m =>
      simp only [List.getElem?_cons_succ] at h
      have ht := ih m h
      simp only [List.set]
      rw [← Multiset.cons_coe, ← Multiset.cons_coe, Multiset.cons_swap]
      rw [ht, Multiset.cons_swap]

theorem listSwap_coe {α : Type} (l : List α) (i j : Nat) :
    ((listSwap l i j : List α) : Multiset α) = (↑l : Multiset α) := by
  unfold listSwap
  cases hi : l[i]? with
  | none => simp
  | some a =>
    cases hj : l[j]? with
    | none => simp
    | some b =>
      simp only []
      have hib : (l.set i b)[j]? = some b := by
        rw [List.getElem?_set]
        by_cases hij : i = j
        · have : i < l.length := by
            have := List.getElem?_eq_some_iff.mp hi
            exact this.1
          simp [hij, hij ▸ this]
        · simp [hij, hj]
      have h1 := coe_set_cons l i b a hi
      have h2 := coe_set_cons (l.set i b) j a b hib
      have key : b ::ₘ (↑((l.set i b).set j a) : Multiset α) = b ::ₘ (↑l : Multiset α) := by
        rw [h2, h1]
      exact (Multiset.cons_inj_right b).mp key

theorem fisherYatesAux_coe {α : Type} (js : List Nat) (l : List α) (i : Nat) :
    ((fisherYatesAux l i js : List α) : Multiset α) = (↑l : Multiset α) := by
  induction js generalizing l i with
  | nil => simp [fisherYatesAux]
  | cons j js ih =>
    cases i with
    | zero => simp [fisherYatesAux]
    | succ m =>
      simp only [fisherYatesAux]
      rw [ih, listSwap_coe]

theorem shuffleInPlace_coe {α : Type} (l : List α) (js : List Nat) :
    ((shuffleInPlace l js : List α) : Multiset α) = (↑l : Multiset α) := by
  unfold shuffleInPlace
  exact fisherYatesAux_coe js l (l.length - 1)

theorem shuffleInPlace_perm {α : Type} (l : List α) (js : List Nat) :
    (shuffleInPlace l js).Perm l :=
  Multiset.coe_eq_coe.mp (shuffleInPlace_coe l js)

theorem dropLast_coe_getLast {α : Type} (l : List α) (c : α) (h : l.getLast? = some c) :
    (↑l : Multiset α) = (↑l.dropLast : Multiset α) + {c} := by
  have hne : l ≠ [] := by
    intro hnil
    subst hnil
    simp at h
  rw [List.getLast?_eq_getLast l hne] at h
  have hc : l.getLast hne = c := Option.some.inj h
  have hdg := List.dropLast_append_getLast hne
  calc (↑l : Multiset α) = (↑(l.dropLast ++ [l.getLast hne]) : Multiset α) := by rw [hdg]
    _ = (↑l.dropLast : Multiset α) + {c} := by rw [hc]; rfl

theorem find?_coe_eraseP {α : Type} (p : α → Bool) (l : List α) (e : α)
    (h : l.find? p = some e) :
    (↑l : Multiset α) = e ::ₘ (↑(l.eraseP p) : Multiset α) := by
  induction l with
  | nil => simp at h
  | cons y t ih =>
    by_cases hy : p y
    · rw [List.find?_cons_of_pos _ hy] at h
      have hye : y = e := Option.some.inj h
      subst hye
      simp [List.eraseP_cons, hy, Multiset.cons_coe]
    · rw [List.find?_cons_of_neg _ (by simpa using hy)] at h
      have ht := ih h
      have hyf : p y = false := by simpa using hy
      simp only [List.eraseP_cons, hyf, Bool.cond_false]
      rw [← Multiset.cons_coe, ← Multiset.cons_coe, ht, Multiset.cons_swap]

theorem filter_coe_split {α : Type} (p : α → Bool) (l : List α) :
    (↑(l.filter p) : Multiset α) + (↑(l.filter (fun x => !p x)) : Multiset α) =
      (↑l : Multiset α) := by
  have := List.filter_append_perm p l
  have h2 := Multiset.coe_eq_coe.mpr this
  simpa using h2

theorem eraseIdx_coe {α : Type} (l : List α) (idx : Nat) (it : α) (h : l[idx]? = some it) :
    (↑l : Multiset α) = it ::ₘ (↑(l.eraseIdx idx) : Multiset α) := by
  induction l generalizing idx with
  | nil => simp at h
  | cons y t ih =>
    cases idx with
    | zero =>
      simp at h
      subst h
      simp [List.eraseIdx]
    | succ m =>
      simp only [List.getElem?_cons_succ] at h
      have ht := ih m h
      simp only [List.eraseIdx]
      rw [← Multiset.cons_coe, ← Multiset.cons_coe, ht, Multiset.cons_swap]

theorem grabRev_coe (cardId : String) (all : Bool) (l : List DiscardEntry) (sp : Nat) :
    (↑(grabRev cardId all l sp).1 : Multiset DiscardEntry) +
      (↑(grabRev cardId all l sp).2 : Multiset DiscardEntry) =
      (↑l : Multiset DiscardEntry) := by
  induction l generalizing sp with
  | nil => simp [grabRev]
  | cons d rest ih =>
    by_cases hsp : sp = 0
    · simp [grabRev, hsp]
    · by_cases hd : d.id == cardId
      · cases all with
        | true =>
          simp only [grabRev, if_neg hsp, hd, if_pos, if_true]
          have := ih (sp - 1)
          rw [← Multiset.cons_coe, ← Multiset.cons_coe]
          rw [show ∀ (x : Multiset DiscardEntry) (y : Multiset DiscardEntry),
            x + (d ::ₘ y) = d ::ₘ (x + y) from fun x y => by
              rw [add_comm, Multiset.cons_add, add_comm]]
          rw [this]
        | false =>
          simp only [grabRev, if_neg hsp, hd, if_pos, if_true]
          rw [← Multiset.cons_coe]
          rw [add_comm, Multiset.cons_coe]
          simp
      · simp only [grabRev, if_neg hsp, hd, Bool.false_eq_true, if_false]
        have := ih sp
        rw [← Multiset.cons_coe, Multiset.cons_add, this]
        simp

theorem grabRev_length (cardId : String) (all : Bool) (l : List DiscardEntry) (sp : Nat) :
    (grabRev cardId all l sp).2.length ≤ sp := by
  induction l generalizing sp with
  | nil => simp [grabRev]
  | cons d rest ih =>
    by_cases hsp : sp = 0
    · simp [grabRev, hsp]
    · by_cases hd : d.id == cardId
      · cases all with
        | true =>
          have := ih (sp - 1)
          simp only [grabRev, if_neg hsp, hd, if_true, List.length_cons]
          simp only [if_true] at this ⊢
          omega
        | false =>
          simp [grabRev, hsp, hd]
          omega
      · simp only [grabRev, if_neg hsp, hd, Bool.false_eq_true, if_false]
        exact ih sp

theorem map_id_mk_hand (l : List DiscardEntry) :
    (l.map (fun m => (⟨m.id, HandState.unspent⟩ : HandEntry))).map (fun h => h.id) =
      l.map (fun d => d.id) := by
  induction l with
  | nil => rfl
  | cons d t ih => simp only [List.map_cons, ih]

theorem map_id_mk_discard (origin : DiscardOrigin) (l : List HandEntry) :
    (l.map (fun r => (⟨r.id, origin⟩ : DiscardEntry))).map (fun d => d.id) =
      l.map (fun h => h.id) := by
  induction l with
  | nil => rfl
  | cons h t ih => simp only [List.map_cons, ih]

/-! ### Zone conservation for each operation -/

theorem zoneMultiset_draw (s : DeckBuilderState) :
    zoneMultiset (draw s) = zoneMultiset s := by
  unfold draw
  split
  · rfl
  · split
    · rfl
    · split
      · simp [zoneMultiset]
      · rename_i cardId hg
        split
        · simp [zoneMultiset]
        · simp only [zoneMultiset]
          rw [dropLast_coe_getLast s.deck cardId hg]
          rw [List.map_append]
          rw [show List.map (fun h => h.id) [(⟨cardId, HandState.unspent⟩ : HandEntry)] =
            [cardId] from rfl]
          simp only [← Multiset.coe_add, Multiset.coe_singleton]
          abel

theorem discardFromDeckLoop_coe (n : Nat) (deck : List String) (discard : List DiscardEntry)
    (hne : ¬ "" ∈ deck) :
    ((discardFromDeckLoop deck discard n).1 : Multiset String) +
      (((discardFromDeckLoop deck discard n).2.map (fun d => d.id) : List String) : Multiset String) =
      (deck : Multiset String) + ((discard.map (fun d => d.id) : List String) : Multiset String) := by
  induction n generalizing deck discard with
  | zero => simp [discardFromDeckLoop]
  | succ m ih =>
    unfold discardFromDeckLoop
    cases hg : deck.getLast? with
    | none => simp
    | some c =>
      simp only []
      have hcmem : c ∈ deck := List.mem_of_mem_getLast? hg
      have hcne : ¬ c = "" := fun hh => hne (hh ▸ hcmem)
      rw [if_neg hcne]
      have hnd : ¬ "" ∈ deck.dropLast := fun hmem =>
        hne (List.Sublist.mem hmem (List.dropLast_sublist deck))
      rw [ih deck.dropLast (discard ++ [(⟨c, DiscardOrigin.discarded⟩ : DiscardEntry)]) hnd]
      rw [dropLast_coe_getLast deck c hg]
      rw [List.map_append]
      rw [show List.map (fun d => d.id) [(⟨c, DiscardOrigin.discarded⟩ : DiscardEntry)] =
        [c] from rfl]
      simp only [← Multiset.coe_add, Multiset.coe_singleton]
      abel

theorem zoneMultiset_discardFromDeck (s : DeckBuilderState) (count : Nat)
    (hne : ¬ "" ∈ s.deck) :
    zoneMultiset (discardFromDeck s count) = zoneMultiset s := by
  unfold discardFromDeck zoneMultiset
  simp only []
  have h := discardFromDeckLoop_coe count s.deck s.discard hne
  calc ((discardFromDeckLoop s.deck s.discard count).1 : Multiset String) +
        ↑(s.hand.map (fun h => h.id)) +
        ↑((discardFromDeckLoop s.deck s.discard count).2.map (fun d => d.id)) =
      (((discardFromDeckLoop s.deck s.discard count).1 : Multiset String) +
        ↑((discardFromDeckLoop s.deck s.discard count).2.map (fun d => d.id))) +
        ↑(s.hand.map (fun h => h.id)) := by abel
    _ = ((s.deck : Multiset String) + ↑(s.discard.map (fun d => d.id))) +
        ↑(s.hand.map (fun h => h.id)) := by rw [h]
    _ = (s.deck : Multiset String) + ↑(s.hand.map (fun h => h.id)) +
        ↑(s.discard.map (fun d => d.id)) := by abel

theorem zoneMultiset_discardGroupFromHand (s : DeckBuilderState) (cardId : String)
    (all : Bool) (origin : DiscardOrigin) :
    zoneMultiset (discardGroupFromHand s cardId all origin) = zoneMultiset s := by
  cases all with
  | true =>
    by_cases hrem : (s.hand.filter (fun h => h.id == cardId)).reverse = []
    · have hstate : discardGroupFromHand s cardId true origin = s := by
        unfold discardGroupFromHand
        simp [hrem]
      rw [hstate]
    · have hstate : discardGroupFromHand s cardId true origin =
          { s with
            hand := s.hand.filter (fun h => !(h.id == cardId)),
            discard := s.discard ++
              ((s.hand.filter (fun h => h.id == cardId)).reverse.map
                (fun r => (⟨r.id, origin⟩ : DiscardEntry))) } := by
        unfold discardGroupFromHand
        simp [hrem]
      rw [hstate]
      simp only [zoneMultiset, List.map_append, map_id_mk_discard, List.map_reverse,
        Multiset.coe_reverse]
      have hsplit := Multiset.coe_eq_coe.mpr
        ((List.filter_append_perm (fun h => h.id == cardId) s.hand).map (fun h => h.id))
      simp only [List.map_append, ← Multiset.coe_add] at hsplit
      simp only [← Multiset.coe_add, Multiset.coe_reverse]
      rw [← hsplit]
      abel
  | false =>
    cases hf : s.hand.find? (fun h => h.id == cardId) with
    | none =>
      have hstate : discardGroupFromHand s cardId false origin = s := by
        unfold discardGroupFromHand
        simp [hf]
      rw [hstate]
    | some e =>
      have hstate : discardGroupFromHand s cardId false origin =
          { s with
            hand := s.hand.eraseP (fun h => h.id == cardId),
            discard := s.discard ++ [(⟨e.id, origin⟩ : DiscardEntry)] } := by
        unfold discardGroupFromHand
        simp [hf]
      rw [hstate]
      simp only [zoneMultiset, List.map_append]
      rw [show List.map (fun d => d.id) [(⟨e.id, origin⟩ : DiscardEntry)] = [e.id] from rfl]
      have he := find?_coe_eraseP (fun h => h.id == cardId) s.hand e hf
      have hemap : (↑(s.hand.map (fun h => h.id)) : Multiset String) =
          {e.id} + ↑((s.hand.eraseP (fun h => h.id == cardId)).map (fun h => h.id)) := by
        have h2 := congrArg (Multiset.map (fun h : HandEntry => h.id)) he
        simp only [Multiset.map_coe, Multiset.map_cons, ← Multiset.singleton_add] at h2
        exact h2
      rw [hemap]
      simp only [← Multiset.coe_add, Multiset.coe_singleton]
      abel

theorem zoneMultiset_returnDiscardToDeck (s : DeckBuilderState) (shuffle toTop : Bool)
    (js1 js2 : List Nat) :
    zoneMultiset (returnDiscardToDeck s shuffle toTop js1 js2) = zoneMultiset s := by
  unfold returnDiscardToDeck zoneMultiset
  have hshuf1 : ∀ l : List String,
      ((if shuffle = true then shuffleInPlace l js1 else l : List String) : Multiset String) =
        (l : Multiset String) := by
    intro l
    split
    · exact shuffleInPlace_coe _ _
    · rfl
  have hshuf2 : ∀ l : List String,
      ((if shuffle = true then shuffleInPlace l js2 else l : List String) : Multiset String) =
        (l : Multiset String) := by
    intro l
    split
    · exact shuffleInPlace_coe _ _
    · rfl
  rw [hshuf2]
  cases toTop with
  | true =>
    rw [if_pos rfl]
    simp only [← Multiset.coe_add]
    rw [hshuf1]
    simp only [List.map_nil, Multiset.coe_nil]
    abel
  | false =>
    rw [if_neg (by simp)]
    simp only [← Multiset.coe_add]
    rw [hshuf1]
    simp only [List.map_nil, Multiset.coe_nil]
    abel

theorem zoneMultiset_returnDiscardGroupToDeck (s : DeckBuilderState) (cardId : String)
    (all : Bool) :
    zoneMultiset (returnDiscardGroupToDeck s cardId all) = zoneMultiset s := by
  cases all with
  | true =>
    have hstate : returnDiscardGroupToDeck s cardId true =
        { s with
          deck := s.deck ++ (s.discard.filter (fun d => d.id == cardId)).map (fun d => d.id),
          discard := s.discard.filter (fun d => !(d.id == cardId)) } := by
      unfold returnDiscardGroupToDeck
      simp
    rw [hstate]
    simp only [zoneMultiset, List.map_append]
    have hsplit := Multiset.coe_eq_coe.mpr
      ((List.filter_append_perm (fun d => d.id == cardId) s.discard).map (fun d => d.id))
    simp only [List.map_append, ← Multiset.coe_add] at hsplit
    simp only [← Multiset.coe_add]
    rw [← hsplit]
    abel
  | false =>
    cases hf : s.discard.find? (fun d => d.id == cardId) with
    | none =>
      have hstate : returnDiscardGroupToDeck s cardId false = s := by
        unfold returnDiscardGroupToDeck
        simp [hf]
      rw [hstate]
    | some it =>
      have hstate : returnDiscardGroupToDeck s cardId false =
          { s with
            deck := s.deck ++ [it.id],
            discard := s.discard.eraseP (fun d => d.id == cardId) } := by
        unfold returnDiscardGroupToDeck
        simp [hf]
      rw [hstate]
      simp only [zoneMultiset, List.map_append]
      have he := find?_coe_eraseP (fun d => d.id == cardId) s.discard it hf
      have hemap : (↑(s.discard.map (fun d => d.id)) : Multiset String) =
          {it.id} + ↑((s.discard.eraseP (fun d => d.id == cardId)).map (fun d => d.id)) := by
        have h2 := congrArg (Multiset.map (fun d : DiscardEntry => d.id)) he
        simp only [Multiset.map_coe, Multiset.map_cons, ← Multiset.singleton_add] at h2
        exact h2
      rw [hemap]
      simp only [← Multiset.coe_add, Multiset.coe_singleton]
      abel

theorem zoneMultiset_returnDiscardGroupToHand (s : DeckBuilderState) (cardId : String)
    (all : Bool) :
    zoneMultiset (returnDiscardGroupToHand s cardId all) = zoneMultiset s := by
  by_cases hsp : s.handLimit - s.hand.length = 0
  · have hstate : returnDiscardGroupToHand s cardId all = s := by
      unfold returnDiscardGroupToHand
      simp [hsp]
    rw [hstate]
  · by_cases hmv : (grabRev cardId all s.discard.reverse (s.handLimit - s.hand.length)).2 = []
    · have hstate : returnDiscardGroupToHand s cardId all = s := by
        unfold returnDiscardGroupToHand
        simp [hsp, hmv]
      rw [hstate]
    · have hstate : returnDiscardGroupToHand s cardId all =
          { s with
            discard := (grabRev cardId all s.discard.reverse (s.handLimit - s.hand.length)).1.reverse,
            hand := s.hand ++
              (grabRev cardId all s.discard.reverse (s.handLimit - s.hand.length)).2.map
                (fun m => (⟨m.id, HandState.unspent⟩ : HandEntry)) } := by
        unfold returnDiscardGroupToHand
        simp [hsp, hmv]
      rw [hstate]
      simp only [zoneMultiset, List.map_append, map_id_mk_hand, List.map_reverse,
        Multiset.coe_reverse]
      have hco := grabRev_coe cardId all s.discard.reverse (s.handLimit - s.hand.length)
      rw [Multiset.coe_reverse] at hco
      have hmap := congrArg (Multiset.map (fun d : DiscardEntry => d.id)) hco
      simp only [Multiset.map_add, Multiset.map_coe] at hmap
      simp only [← Multiset.coe_add]
      rw [← hmap]
      abel

theorem zoneMultiset_returnDiscardItemToHand (s : DeckBuilderState) (idx : Nat) :
    zoneMultiset (returnDiscardItemToHand s idx) = zoneMultiset s := by
  by_cases hfull : s.hand.length ≥ s.handLimit
  · have hstate : returnDiscardItemToHand s idx = s := by
      unfold returnDiscardItemToHand
      simp [hfull]
    rw [hstate]
  · cases hg : s.discard[idx]? with
    | none =>
      have hstate : returnDiscardItemToHand s idx = s := by
        unfold returnDiscardItemToHand
        simp [hfull, hg]
      rw [hstate]
    | some it =>
      have hstate : returnDiscardItemToHand s idx =
          { s with
            discard := s.discard.eraseIdx idx,
            hand := s.hand ++ [(⟨it.id, HandState.unspent⟩ : HandEntry)] } := by
        unfold returnDiscardItemToHand
        simp [hfull, hg]
      rw [hstate]
      simp only [zoneMultiset, List.map_append]
      rw [show List.map (fun h => h.id) [(⟨it.id, HandState.unspent⟩ : HandEntry)] =
        [it.id] from rfl]
      have he := eraseIdx_coe s.discard idx it hg
      have hemap : (↑(s.discard.map (fun d => d.id)) : Multiset String) =
          {it.id} + ↑((s.discard.eraseIdx idx).map (fun d => d.id)) := by
        have h2 := congrArg (Multiset.map (fun d : DiscardEntry => d.id)) he
        simp only [Multiset.map_coe, Multiset.map_cons, ← Multiset.singleton_add] at h2
        exact h2
      rw [hemap]
      simp only [← Multiset.coe_add, Multiset.coe_singleton]
      abel

theorem zoneMultiset_applyZoneOp (s : DeckBuilderState) (op : ZoneOp)
    (h : ¬ "" ∈ zoneMultiset s) :
    zoneMultiset (applyZoneOp s op) = zoneMultiset s := by
  cases op with
  | draw => exact zoneMultiset_draw s
  | discardFromDeck count =>
    refine zoneMultiset_discardFromDeck s count ?_
    intro hmem
    apply h
    unfold zoneMultiset
    rw [Multiset.mem_add, Multiset.mem_add]
    exact Or.inl (Or.inl (Multiset.mem_coe.mpr hmem))
  | discardFromHand cardId all origin => exact zoneMultiset_discardGroupFromHand s cardId all origin
  | returnDiscardToDeck shuffle toTop js1 js2 =>
    exact zoneMultiset_returnDiscardToDeck s shuffle toTop js1 js2
  | returnDiscardGroupToDeck cardId all => exact zoneMultiset_returnDiscardGroupToDeck s cardId all
  | returnDiscardGroupToHand cardId all => exact zoneMultiset_returnDiscardGroupToHand s cardId all
  | returnDiscardItemToHand idx => exact zoneMultiset_returnDiscardItemToHand s idx

theorem zoneMultiset_applyZoneOps (ops : List ZoneOp) (s : DeckBuilderState)
    (h : ¬ "" ∈ zoneMultiset s) :
    zoneMultiset (applyZoneOps s ops) = zoneMultiset s := by
  induction ops generalizing s with
  | nil => rfl
  | cons op rest ih =>
    have hop := zoneMultiset_applyZoneOp s op h
    have hnext : ¬ "" ∈ zoneMultiset (applyZoneOp s op) := by
      rw [hop]
      exact h
    unfold applyZoneOps at ih ⊢
    simp only [List.foldl_cons]
    rw [ih (applyZoneOp s op) hnext, hop]

/-! ### Concrete fixtures used by witnesses and counterexamples -/

/-- A small concrete configuration for witnesses: strict mode,
cost-weighted capacity, one modifier card of cost 2, a null card. -/
def sampleCtx : Ctx :=
  { baseTarget := 2, minNulls := 1, simpleCounters := false, modCapacityAsCount := false,
    modCards := [⟨"m", 2⟩], nullId := some "n" }

/-- Simple-counters configuration with capacity as raw count. -/
def ctxSimple : Ctx :=
  { baseTarget := 2, minNulls := 1, simpleCounters := true, modCapacityAsCount := true,
    modCards := [⟨"m", 2⟩], nullId := some "n" }

/-- A small unlocked builder state. -/
def sampleUnlocked : DeckBuilderState :=
  { baseCounts := [("b", 2)], modCounts := [("m", 1)], nullCount := 1, modifierCapacity := 10,
    deck := [], hand := [], discard := [], isLocked := false, hasBuiltDeck := false,
    hasShuffledDeck := false, handLimit := 5, opsError := none }

/-- A small locked, built and shuffled state with cards in every zone. -/
def sampleLocked : DeckBuilderState :=
  { baseCounts := [("b", 2)], modCounts := [("m", 1)], nullCount := 1, modifierCapacity := 10,
    deck := ["b", "b", "m", "n"], hand := [⟨"b", HandState.unspent⟩],
    discard := [⟨"m", DiscardOrigin.discarded⟩], isLocked := true, hasBuiltDeck := true,
    hasShuffledDeck := true, handLimit := 5, opsError := none }

/-- An unlocked state whose composition is invalid (base total below
target, nulls below the minimum). -/
def sampleInvalid : DeckBuilderState :=
  { sampleUnlocked with baseCounts := [("b", 1)], nullCount := 0 }

/-! ### Lock / unlock effect helpers -/

theorem lock_effects (ctx : Ctx) (s : DeckBuilderState) (js : List Nat)
    (h : s.isLocked = false) :
    (toggleLockDeck ctx s js).isLocked = true ∧
      (toggleLockDeck ctx s js).deck.Perm (buildDeckArray ctx s) ∧
      (toggleLockDeck ctx s js).hand = [] ∧
      (toggleLockDeck ctx s js).discard = [] ∧
      (toggleLockDeck ctx s js).hasBuiltDeck = true ∧
      (toggleLockDeck ctx s js).hasShuffledDeck = false ∧
      (toggleLockDeck ctx s js).opsError = some "Shuffle the deck before drawing." := by
  unfold toggleLockDeck
  rw [if_pos (by simp [h])]
  exact ⟨rfl, shuffleInPlace_perm _ _, rfl, rfl, rfl, rfl, rfl⟩

theorem unlock_effects (ctx : Ctx) (s : DeckBuilderState) (js : List Nat)
    (h : s.isLocked = true) :
    (toggleLockDeck ctx s js).isLocked = false ∧
      (toggleLockDeck ctx s js).hasBuiltDeck = false ∧
      (toggleLockDeck ctx s js).hasShuffledDeck = false ∧
      (toggleLockDeck ctx s js).deck = s.deck ∧
      (toggleLockDeck ctx s js).hand = s.hand ∧
      (toggleLockDeck ctx s js).discard = s.discard ∧
      (toggleLockDeck ctx s js).opsError = none := by
  unfold toggleLockDeck
  rw [if_neg (by simp [h])]
  exact ⟨rfl, rfl, rfl, rfl, rfl, rfl, rfl⟩

/-! ### Claim theorems -/

/-- A composition whose materialized deck is a single empty-string
card id. -/
def c1EmptyIdState : DeckBuilderState :=
  { sampleUnlocked with baseCounts := [("", 1)], modCounts := [], nullCount := 0 }

/-- Claim C1 counterexample: when the materialized deck holds an
empty-string card id, `discardFromDeck` pops it off the committed deck
copy but the falsy guard skips the discard push, destroying the card
id — after the lock/build and a single discard-from-deck, the zone
multiset no longer equals the materialized multiset. -/
theorem c1_counterexample :
    c1EmptyIdState.isLocked = false ∧
      zoneMultiset (applyZoneOps (toggleLockDeck sampleCtx c1EmptyIdState [])
        [ZoneOp.discardFromDeck 1]) ≠
        (buildDeckArray sampleCtx c1EmptyIdState : Multiset String) := by
  decide

/-- Claim C1 (amended): after a lock/build from an unlocked state whose
materialized deck contains no empty-string card id, every sequence of
draw, discard-from-hand, discard-from-deck, return-discard-to-deck
and return-discard-to-hand operations preserves the multiset of card
ids across deckZone, handZone and discardZone: it always equals the
multiset materialized at that lock/build; no operation creates or
destroys a card id. (On an empty-string id, discard-from-deck commits
the pop without pushing to the discard, destroying that card id.) -/
theorem c1_zone_conservation (ctx : Ctx) (s : DeckBuilderState) (js : List Nat)
    (ops : List ZoneOp) (h : s.isLocked = false)
    (hid : ¬ "" ∈ buildDeckArray ctx s) :
    zoneMultiset (applyZoneOps (toggleLockDeck ctx s js) ops) =
      (buildDeckArray ctx s : Multiset String) := by
  have hlock : zoneMultiset (toggleLockDeck ctx s js) =
      (buildDeckArray ctx s : Multiset String) := by
    unfold toggleLockDeck zoneMultiset
    rw [if_pos (by simp [h])]
    simp only [List.map_nil, Multiset.coe_nil, add_zero]
    exact shuffleInPlace_coe _ _
  have hmem : ¬ "" ∈ zoneMultiset (toggleLockDeck ctx s js) := by
    rw [hlock, Multiset.mem_coe]
    exact hid
  rw [zoneMultiset_applyZoneOps ops _ hmem, hlock]

/-- Witness for `c1_zone_conservation` at a concrete unlocked state
with a draw followed by a discard from hand. -/
theorem c1_zone_conservation_witness :
    sampleUnlocked.isLocked = false ∧
      (¬ "" ∈ buildDeckArray sampleCtx sampleUnlocked) ∧
      zoneMultiset (applyZoneOps (toggleLockDeck sampleCtx sampleUnlocked [1, 2, 0])
        [ZoneOp.draw, ZoneOp.discardFromHand "b" false DiscardOrigin.discarded]) =
        (buildDeckArray sampleCtx sampleUnlocked : Multiset String) :=
  ⟨rfl, by decide, c1_zone_conservation sampleCtx sampleUnlocked [1, 2, 0]
    [ZoneOp.draw, ZoneOp.discardFromHand "b" false DiscardOrigin.discarded] rfl (by decide)⟩

/-- Claim C7: for every deck and every choice of random indices,
`shuffleDeck` leaves deckZone a permutation of its pre-shuffle contents
(same length, same per-id multiplicity) and never touches the hand or
the discard. -/
theorem c7_shuffle_permutation (s : DeckBuilderState) (js : List Nat) (confirmed : Bool) :
    (shuffleDeck s js confirmed).deck.Perm s.deck ∧
      (shuffleDeck s js confirmed).deck.length = s.deck.length ∧
      (∀ id : String, (shuffleDeck s js confirmed).deck.count id = s.deck.count id) ∧
      (shuffleDeck s js confirmed).hand = s.hand ∧
      (shuffleDeck s js confirmed).discard = s.discard := by
  have hperm : (shuffleDeck s js confirmed).deck.Perm s.deck := by
    unfold shuffleDeck
    split
    · exact List.Perm.refl _
    · show (if s.deck.length ≠ 0 then shuffleInPlace s.deck js else s.deck).Perm s.deck
      split
      · exact shuffleInPlace_perm _ _
      · exact List.Perm.refl _
  refine ⟨hperm, hperm.length_eq, fun id => hperm.count_eq id, ?_, ?_⟩
  · unfold shuffleDeck
    split
    · rfl
    · rfl
  · unfold shuffleDeck
    split
    · rfl
    · rfl

/-- Claim C4: locking while unlocked sets `isLocked`, replaces deckZone
with a permutation of the composition multiset (each base id by its
count, each modifier id by its count, the null id `nullCount` times),
empties hand and discard, sets built, clears shuffled and surfaces the
shuffle-before-drawing notice; calling lock while locked performs
unlock instead (toggle semantics). -/
theorem c4_lock_toggle (ctx : Ctx) (s : DeckBuilderState) (js : List Nat) :
    (s.isLocked = false →
      (toggleLockDeck ctx s js).isLocked = true ∧
      (toggleLockDeck ctx s js).deck.Perm (buildDeckArray ctx s) ∧
      (toggleLockDeck ctx s js).hand = [] ∧
      (toggleLockDeck ctx s js).discard = [] ∧
      (toggleLockDeck ctx s js).hasBuiltDeck = true ∧
      (toggleLockDeck ctx s js).hasShuffledDeck = false ∧
      (toggleLockDeck ctx s js).opsError = some "Shuffle the deck before drawing.") ∧
    (s.isLocked = true →
      (toggleLockDeck ctx s js).isLocked = false ∧
      (toggleLockDeck ctx s js).hasBuiltDeck = false ∧
      (toggleLockDeck ctx s js).hasShuffledDeck = false) :=
  ⟨fun h => lock_effects ctx s js h,
   fun h =>
     let hu := unlock_effects ctx s js h
     ⟨hu.1, hu.2.1, hu.2.2.1⟩⟩

/-- Witness for `c4_lock_toggle`: the lock branch at a concrete
unlocked state and the unlock branch at a concrete locked state. -/
theorem c4_lock_toggle_witness :
    (sampleUnlocked.isLocked = false ∧
      (toggleLockDeck sampleCtx sampleUnlocked [2, 1]).deck.Perm
        (buildDeckArray sampleCtx sampleUnlocked) ∧
      (toggleLockDeck sampleCtx sampleUnlocked [2, 1]).hasBuiltDeck = true) ∧
    (sampleLocked.isLocked = true ∧
      (toggleLockDeck sampleCtx sampleLocked [2, 1]).isLocked = false) :=
  ⟨⟨rfl, ((c4_lock_toggle sampleCtx sampleUnlocked [2, 1]).1 rfl).2.1,
    ((c4_lock_toggle sampleCtx sampleUnlocked [2, 1]).1 rfl).2.2.2.2.1⟩,
   ⟨rfl, ((c4_lock_toggle sampleCtx sampleLocked [2, 1]).2 rfl).1⟩⟩

/-- Claim C10: locking never consults composition validity: for every
unlocked state, valid or not, `toggleLockDeck` succeeds and
materializes the deck from the current counts exactly as for a valid
composition; `deckIsValid` gates no lifecycle transition. -/
theorem c10_lock_ignores_validity (ctx : Ctx) (s : DeckBuilderState) (js : List Nat)
    (h : s.isLocked = false) :
    (toggleLockDeck ctx s js).isLocked = true ∧
      (toggleLockDeck ctx s js).deck.Perm (buildDeckArray ctx s) ∧
      (toggleLockDeck ctx s js).hand = [] ∧
      (toggleLockDeck ctx s js).discard = [] ∧
      (toggleLockDeck ctx s js).hasBuiltDeck = true ∧
      (toggleLockDeck ctx s js).hasShuffledDeck = false :=
  let he := lock_effects ctx s js h
  ⟨he.1, he.2.1, he.2.2.1, he.2.2.2.1, he.2.2.2.2.1, he.2.2.2.2.2.1⟩

/-- Witness for `c10_lock_ignores_validity` at a concrete composition
that is overall invalid (`deckIsValid = false`): the lock still
succeeds and materializes the deck. -/
theorem c10_lock_ignores_validity_witness :
    deckIsValid sampleCtx sampleInvalid = false ∧
      sampleInvalid.isLocked = false ∧
      (toggleLockDeck sampleCtx sampleInvalid [0]).isLocked = true ∧
      (toggleLockDeck sampleCtx sampleInvalid [0]).deck.Perm
        (buildDeckArray sampleCtx sampleInvalid) :=
  ⟨by decide, rfl,
   (c10_lock_ignores_validity sampleCtx sampleInvalid [0] rfl).1,
   (c10_lock_ignores_validity sampleCtx sampleInvalid [0] rfl).2.1⟩

/-- Claim C6 counterexample: at a concrete locked state with cards in
every zone, unlocking leaves deckZone, handZone and discardZone all
nonempty — the zones are not cleared, contradicting the claim. -/
theorem c6_counterexample :
    sampleLocked.isLocked = true ∧
      (toggleLockDeck sampleCtx sampleLocked [0]).isLocked = false ∧
      (toggleLockDeck sampleCtx sampleLocked [0]).deck ≠ [] ∧
      (toggleLockDeck sampleCtx sampleLocked [0]).hand ≠ [] ∧
      (toggleLockDeck sampleCtx sampleLocked [0]).discard ≠ [] := by
  decide

/-- Claim C6 (amended): unlocking a locked deck session resets
`isLocked` and the built/shuffled lifecycle flags to false and clears
the ops error, but leaves deckZone, handZone and discardZone exactly
as they were (they are not cleared). -/
theorem c6_unlock_amended (ctx : Ctx) (s : DeckBuilderState) (js : List Nat)
    (h : s.isLocked = true) :
    (toggleLockDeck ctx s js).isLocked = false ∧
      (toggleLockDeck ctx s js).hasBuiltDeck = false ∧
      (toggleLockDeck ctx s js).hasShuffledDeck = false ∧
      (toggleLockDeck ctx s js).deck = s.deck ∧
      (toggleLockDeck ctx s js).hand = s.hand ∧
      (toggleLockDeck ctx s js).discard = s.discard ∧
      (toggleLockDeck ctx s js).opsError = none :=
  unlock_effects ctx s js h

/-- Witness for `c6_unlock_amended` at a concrete locked state. -/
theorem c6_unlock_amended_witness :
    sampleLocked.isLocked = true ∧
      (toggleLockDeck sampleCtx sampleLocked [0]).deck = sampleLocked.deck ∧
      (toggleLockDeck sampleCtx sampleLocked [0]).hasBuiltDeck = false :=
  ⟨rfl, (c6_unlock_amended sampleCtx sampleLocked [0] rfl).2.2.2.1,
   (c6_unlock_amended sampleCtx sampleLocked [0] rfl).2.1⟩

/-- Locked but not yet built. -/
def c5NotBuilt : DeckBuilderState :=
  { sampleUnlocked with isLocked := true }

/-- Locked and built but not yet shuffled. -/
def c5NotShuffled : DeckBuilderState :=
  { sampleUnlocked with isLocked := true, hasBuiltDeck := true }

/-- Locked, built and shuffled, with one card in the deck and room in
the hand. -/
def c5Ready : DeckBuilderState :=
  { sampleUnlocked with
    isLocked := true,
    hasBuiltDeck := true,
    hasShuffledDeck := true,
    deck := ["a"] }

/-- Locked, built and shuffled with an empty deck. -/
def c5ReadyEmpty : DeckBuilderState :=
  { sampleUnlocked with isLocked := true, hasBuiltDeck := true, hasShuffledDeck := true }

/-- Locked, built and shuffled with a nonempty deck but the hand at its
limit (limit zero). -/
def c5Full : DeckBuilderState :=
  { sampleUnlocked with
    isLocked := true,
    hasBuiltDeck := true,
    hasShuffledDeck := true,
    deck := ["a"],
    handLimit := 0 }

/-- Claim C5 counterexample: with the lock, build and shuffle
preconditions all satisfied but the hand at its limit, `handleDraw`
neither pops the deck tail nor reports deck depletion — it is a silent
no-op although the deck is nonempty. -/
theorem c5_counterexample :
    c5Full.isLocked = true ∧ c5Full.hasBuiltDeck = true ∧
      c5Full.hasShuffledDeck = true ∧ c5Full.deck ≠ [] ∧
      handleDraw c5Full = c5Full := by
  decide

/-- Claim C5 (amended): a draw before lock, build and shuffle is
rejected with no zone mutation, the missing preconditions checked in
the fixed order lock, then build, then shuffle, each with its own
message; when all three hold the draw proceeds: with room in the hand
it pops the deck tail into the hand as unspent (the code treats an
empty-string card id like an empty deck), on an empty deck it reports
deck depleted, and with the hand at its limit it is a no-op. -/
theorem c5_draw_preconditions (s : DeckBuilderState) :
    (s.isLocked = false →
      handleDraw s = { s with opsError := some "Lock the deck before drawing." }) ∧
    (s.isLocked = true → s.hasBuiltDeck = false →
      handleDraw s = { s with opsError := some "Build the deck before drawing." }) ∧
    (s.isLocked = true → s.hasBuiltDeck = true → s.hasShuffledDeck = false →
      handleDraw s = { s with opsError := some "Shuffle the deck before drawing." }) ∧
    (s.isLocked = true → s.hasBuiltDeck = true → s.hasShuffledDeck = true →
      handleDraw s = draw s) ∧
    (s.isLocked = true → s.hand.length < s.handLimit → s.deck = [] →
      draw s = { s with opsError := some "Deck depleted. Refill or rebuild to continue drawing." }) ∧
    (∀ c : String, s.isLocked = true → s.hand.length < s.handLimit →
      s.deck.getLast? = some c → ¬c = "" →
      draw s = { s with
        deck := s.deck.dropLast,
        hand := s.hand ++ [⟨c, HandState.unspent⟩],
        opsError := none }) ∧
    (s.isLocked = true → s.hand.length ≥ s.handLimit → draw s = s) := by
  refine ⟨?_, ?_, ?_, ?_, ?_, ?_, ?_⟩
  · intro h1
    unfold handleDraw
    rw [if_pos (by simp [h1])]
  · intro h1 h2
    unfold handleDraw
    rw [if_neg (by simp [h1]), if_pos (by simp [h2])]
  · intro h1 h2 h3
    unfold handleDraw
    rw [if_neg (by simp [h1]), if_neg (by simp [h2]), if_pos (by simp [h3])]
  · intro h1 h2 h3
    unfold handleDraw
    rw [if_neg (by simp [h1]), if_neg (by simp [h2]), if_neg (by simp [h3])]
  · intro h1 h2 h3
    unfold draw
    rw [if_neg (by simp [h1]), if_neg (by omega)]
    simp only [h3, List.getLast?_nil]
  · intro c h1 h2 hc hne
    unfold draw
    rw [if_neg (by simp [h1]), if_neg (by omega)]
    simp only [hc]
    rw [if_neg hne]
  · intro h1 h2
    unfold draw
    rw [if_neg (by simp [h1]), if_pos h2]

/-- Witness for `c5_draw_preconditions`, exercising every branch at
concrete states. -/
theorem c5_draw_preconditions_witness :
    (sampleUnlocked.isLocked = false ∧
      handleDraw sampleUnlocked =
        { sampleUnlocked with opsError := some "Lock the deck before drawing." }) ∧
    (c5NotBuilt.isLocked = true ∧ c5NotBuilt.hasBuiltDeck = false ∧
      handleDraw c5NotBuilt =
        { c5NotBuilt with opsError := some "Build the deck before drawing." }) ∧
    (c5NotShuffled.hasShuffledDeck = false ∧
      handleDraw c5NotShuffled =
        { c5NotShuffled with opsError := some "Shuffle the deck before drawing." }) ∧
    (handleDraw c5Ready = draw c5Ready) ∧
    (c5ReadyEmpty.deck = [] ∧
      draw c5ReadyEmpty =
        { c5ReadyEmpty with
          opsError := some "Deck depleted. Refill or rebuild to continue drawing." }) ∧
    (c5Ready.deck.getLast? = some "a" ∧
      draw c5Ready = { c5Ready with
        deck := c5Ready.deck.dropLast,
        hand := c5Ready.hand ++ [⟨"a", HandState.unspent⟩],
        opsError := none }) ∧
    (c5Full.hand.length ≥ c5Full.handLimit ∧ draw c5Full = c5Full) :=
  ⟨⟨rfl, (c5_draw_preconditions sampleUnlocked).1 rfl⟩,
   ⟨rfl, rfl, (c5_draw_preconditions c5NotBuilt).2.1 rfl rfl⟩,
   ⟨rfl, (c5_draw_preconditions c5NotShuffled).2.2.1 rfl rfl rfl⟩,
   (c5_draw_preconditions c5Ready).2.2.2.1 rfl rfl rfl,
   ⟨rfl, (c5_draw_preconditions c5ReadyEmpty).2.2.2.2.1 rfl (by decide) rfl⟩,
   ⟨rfl, (c5_draw_preconditions c5Ready).2.2.2.2.2.1 "a" rfl (by decide) rfl (by decide)⟩,
   ⟨by decide, (c5_draw_preconditions c5Full).2.2.2.2.2.2 rfl (by decide)⟩⟩

/-- A locked, built and shuffled state with one card in hand and the
default hand limit, satisfying the hand-limit invariant. -/
def c2state : DeckBuilderState :=
  { sampleUnlocked with
    isLocked := true,
    hasBuiltDeck := true,
    hasShuffledDeck := true,
    hand := [⟨"a", HandState.unspent⟩] }

/-- Claim C2 counterexample: the hand-limit setter clamps the new value
only to the range 0..20; lowering the limit below the current hand
size turns a state satisfying the invariant into one with
handZone.length > handLimit. -/
theorem c2_counterexample :
    c2state.hand.length ≤ c2state.handLimit ∧
      (setHandLimit c2state (some 0)).hand.length >
        (setHandLimit c2state (some 0)).handLimit := by
  decide

/-- Claim C2 (amended): draw and the single/grouped
return-discard-to-hand operations preserve
`handZone.length ≤ handLimit` — each is a no-op or moves only as many
cards as fit; the hand-limit setter, however, clamps only to the range
0..20 and can set the limit below the current hand size, so the
invariant is not preserved by `setHandLimit`. -/
theorem c2_hand_limit_ops (s : DeckBuilderState) (cardId : String) (all : Bool) (idx : Nat)
    (h : s.hand.length ≤ s.handLimit) :
    (draw s).hand.length ≤ (draw s).handLimit ∧
      (returnDiscardItemToHand s idx).hand.length ≤
        (returnDiscardItemToHand s idx).handLimit ∧
      (returnDiscardGroupToHand s cardId all).hand.length ≤
        (returnDiscardGroupToHand s cardId all).handLimit := by
  refine ⟨?_, ?_, ?_⟩
  · unfold draw
    split
    · exact h
    · split
      · exact h
      · rename_i hlt
        split
        · exact h
        · split
          · exact h
          · simp only [List.length_append, List.length_cons, List.length_nil]
            omega
  · unfold returnDiscardItemToHand
    split
    · exact h
    · rename_i hlt
      split
      · exact h
      · simp only [List.length_append, List.length_cons, List.length_nil]
        omega
  · by_cases hsp : s.handLimit - s.hand.length = 0
    · have hstate : returnDiscardGroupToHand s cardId all = s := by
        unfold returnDiscardGroupToHand
        simp [hsp]
      rw [hstate]
      exact h
    · by_cases hmv : (grabRev cardId all s.discard.reverse (s.handLimit - s.hand.length)).2 = []
      · have hstate : returnDiscardGroupToHand s cardId all = s := by
          unfold returnDiscardGroupToHand
          simp [hsp, hmv]
        rw [hstate]
        exact h
      · have hstate : returnDiscardGroupToHand s cardId all =
            { s with
              discard := (grabRev cardId all s.discard.reverse
                (s.handLimit - s.hand.length)).1.reverse,
              hand := s.hand ++
                (grabRev cardId all s.discard.reverse (s.handLimit - s.hand.length)).2.map
                  (fun m => (⟨m.id, HandState.unspent⟩ : HandEntry)) } := by
          unfold returnDiscardGroupToHand
          simp [hsp, hmv]
        rw [hstate]
        have hlen := grabRev_length cardId all s.discard.reverse (s.handLimit - s.hand.length)
        simp only [List.length_append, List.length_map]
        omega

/-- Witness for `c2_hand_limit_ops` at a concrete locked state. -/
theorem c2_hand_limit_ops_witness :
    sampleLocked.hand.length ≤ sampleLocked.handLimit ∧
      (draw sampleLocked).hand.length ≤ (draw sampleLocked).handLimit ∧
      (returnDiscardGroupToHand sampleLocked "m" true).hand.length ≤
        (returnDiscardGroupToHand sampleLocked "m" true).handLimit :=
  ⟨by decide, (c2_hand_limit_ops sampleLocked "m" true 0 (by decide)).1,
   (c2_hand_limit_ops sampleLocked "m" true 0 (by decide)).2.2⟩

/-- Claim C9 counterexample: with the deck locked, `adjustBaseCount`
still mutates the composition (decrementing a base count changes the
state) — the count adjusters for base and null counts carry no lock
guard themselves. -/
theorem c9_counterexample :
    sampleLocked.isLocked = true ∧
      adjustBaseCount sampleCtx sampleLocked "b" (-1) ≠ sampleLocked := by
  decide

/-- Claim C9 (amended): while the deck is locked, `adjustModCount` is a
no-op, and the UI tap handlers `handleBaseIncrement` and
`handleModIncrement` return early without mutating anything;
`adjustBaseCount` and `adjustNullCount` themselves carry no lock guard
— for those, the lock is enforced only by the UI layer (guarded
handlers and disabled buttons). -/
theorem c9_locked_adjustments (ctx : Ctx) (s : DeckBuilderState) (cardId : String)
    (delta : Int) (h : s.isLocked = true) :
    adjustModCount ctx s cardId delta = s ∧
      handleBaseIncrement ctx s cardId = s ∧
      handleModIncrement ctx s cardId = s := by
  refine ⟨?_, ?_, ?_⟩
  · unfold adjustModCount
    rw [if_pos h]
  · unfold handleBaseIncrement
    rw [if_pos h]
  · unfold handleModIncrement
    rw [if_pos h]

/-- Witness for `c9_locked_adjustments` at a concrete locked state. -/
theorem c9_locked_adjustments_witness :
    sampleLocked.isLocked = true ∧
      adjustModCount sampleCtx sampleLocked "m" 1 = sampleLocked :=
  ⟨rfl, (c9_locked_adjustments sampleCtx sampleLocked "m" 1 rfl).1⟩

/-- Claim C3: the composition validator is a pure function of the
builder state: `baseValid` holds iff the base total equals
`baseTarget` (always true in simple-counters mode); `nullValid` holds
iff `nullCount ≥ minNulls`; `modValid` holds iff the modifier capacity
used is at most `modifierCapacity` (always true when simple-counters
mode and capacity-as-raw-count mode are both set); overall validity is
the conjunction of the three. -/
theorem c3_validator (ctx : Ctx) (s : DeckBuilderState) :
    (ctx.simpleCounters = true → baseValid ctx s = true) ∧
    (ctx.simpleCounters = false →
      (baseValid ctx s = true ↔ baseTotal s = ctx.baseTarget)) ∧
    (nullValid ctx s = true ↔ ctx.minNulls ≤ s.nullCount) ∧
    (ctx.simpleCounters = true → ctx.modCapacityAsCount = true → modValid ctx s = true) ∧
    (¬(ctx.simpleCounters = true ∧ ctx.modCapacityAsCount = true) →
      (modValid ctx s = true ↔ modCapacityUsed ctx s ≤ s.modifierCapacity)) ∧
    deckIsValid ctx s = (baseValid ctx s && nullValid ctx s && modValid ctx s) := by
  refine ⟨?_, ?_, ?_, ?_, ?_, rfl⟩
  · intro h
    unfold baseValid
    rw [if_pos h]
  · intro h
    unfold baseValid
    rw [if_neg (by simp [h])]
    exact beq_iff_eq
  · unfold nullValid
    exact decide_eq_true_iff
  · intro h1 h2
    unfold modValid
    rw [if_pos (by simp [h1, h2])]
  · intro h
    unfold modValid
    rw [if_neg (by rw [Bool.and_eq_true]; exact h)]
    exact decide_eq_true_iff

/-- Witness for `c3_validator`, covering the strict and the
simple-counters configurations at a concrete state. -/
theorem c3_validator_witness :
    (ctxSimple.simpleCounters = true ∧ baseValid ctxSimple sampleUnlocked = true ∧
      modValid ctxSimple sampleUnlocked = true) ∧
    (sampleCtx.simpleCounters = false ∧
      (baseValid sampleCtx sampleUnlocked = true ↔
        baseTotal sampleUnlocked = sampleCtx.baseTarget) ∧
      (modValid sampleCtx sampleUnlocked = true ↔
        modCapacityUsed sampleCtx sampleUnlocked ≤ sampleUnlocked.modifierCapacity)) :=
  ⟨⟨rfl, (c3_validator ctxSimple sampleUnlocked).1 rfl,
    (c3_validator ctxSimple sampleUnlocked).2.2.2.1 rfl rfl⟩,
   ⟨rfl, (c3_validator sampleCtx sampleUnlocked).2.1 rfl,
    (c3_validator sampleCtx sampleUnlocked).2.2.2.2.1 (by simp [sampleCtx])⟩⟩

/-! ### Finalize-play machinery -/

/-- The number of copies of a card id currently in the hand zone. -/
def handCount (s : DeckBuilderState) (id : String) : Nat :=
  (s.hand.filter (fun e => e.id == id)).length

theorem discardGroupFromHand_single_none (s : DeckBuilderState) (cardId : String)
    (origin : DiscardOrigin) (hf : s.hand.find? (fun e => e.id == cardId) = none) :
    discardGroupFromHand s cardId false origin = s := by
  unfold discardGroupFromHand
  simp [hf]

theorem discardGroupFromHand_single_some (s : DeckBuilderState) (cardId : String)
    (origin : DiscardOrigin) (e : HandEntry)
    (hf : s.hand.find? (fun x => x.id == cardId) = some e) :
    discardGroupFromHand s cardId false origin =
      { s with
        hand := s.hand.eraseP (fun x => x.id == cardId),
        discard := s.discard ++ [⟨e.id, origin⟩] } := by
  unfold discardGroupFromHand
  simp [hf]

theorem find_of_filter_pos (l : List HandEntry) (id : String)
    (h : 1 ≤ (l.filter (fun e => e.id == id)).length) :
    ∃ e, l.find? (fun e => e.id == id) = some e := by
  induction l with
  | nil => simp at h
  | cons y t ih =>
    by_cases hy : (y.id == id) = true
    · refine ⟨y, ?_⟩
      unfold List.find?
      rw [hy]
    · have hyf : (y.id == id) = false := by simpa using hy
      simp only [List.filter_cons, hyf, Bool.false_eq_true, if_false] at h
      obtain ⟨e, he⟩ := ih h
      refine ⟨e, ?_⟩
      rw [List.find?_cons_of_neg _ (by simpa using hy)]
      exact he

theorem find_entry_id (l : List HandEntry) (id : String) (e : HandEntry)
    (hf : l.find? (fun x => x.id == id) = some e) : e.id = id := by
  have := List.find?_some hf
  simpa using this

theorem eraseP_handCount_self (l : List HandEntry) (id : String) (e : HandEntry)
    (hf : l.find? (fun x => x.id == id) = some e) :
    ((l.eraseP (fun x => x.id == id)).filter (fun x => x.id == id)).length + 1 =
      (l.filter (fun x => x.id == id)).length := by
  induction l with
  | nil => simp at hf
  | cons y t ih =>
    by_cases hy : (y.id == id) = true
    · simp only [List.eraseP_cons, hy, cond_true, List.filter_cons, if_true,
        List.length_cons]
    · have hyf : (y.id == id) = false := by simpa using hy
      rw [List.find?_cons_of_neg _ (by simpa using hy)] at hf
      simp only [List.eraseP_cons, hyf, cond_false, List.filter_cons, Bool.false_eq_true,
        if_false, List.length_cons]
      exact ih hf

theorem eraseP_handCount_other (l : List HandEntry) (id idO : String) (hne : ¬idO = id) :
    ((l.eraseP (fun x => x.id == id)).filter (fun x => x.id == idO)).length =
      (l.filter (fun x => x.id == idO)).length := by
  induction l with
  | nil => rfl
  | cons y t ih =>
    by_cases hy : (y.id == id) = true
    · have hyid : y.id = id := by simpa using hy
      have hyO : (y.id == idO) = false := by
        rw [hyid]
        rw [beq_eq_false_iff_ne]
        exact fun hh => hne hh.symm
      simp only [List.eraseP_cons, hy, cond_true, List.filter_cons, hyO,
        Bool.false_eq_true, if_false]
    · have hyf : (y.id == id) = false := by simpa using hy
      simp only [List.eraseP_cons, hyf, cond_false, List.filter_cons]
      by_cases hyO : (y.id == idO) = true
      · simp only [hyO, if_true, List.length_cons, ih]
      · have hyOf : (y.id == idO) = false := by simpa using hyO
        simp only [hyOf, Bool.false_eq_true, if_false, ih]

theorem finalize_fold (ms : List String) (s : DeckBuilderState)
    (hnd : ms.Nodup) (hpres : ∀ m ∈ ms, 1 ≤ handCount s m) :
    (∀ id, handCount (ms.foldl
        (fun st m => discardGroupFromHand st m false DiscardOrigin.played) s) id =
      handCount s id - (if id ∈ ms then 1 else 0)) ∧
    (ms.foldl (fun st m => discardGroupFromHand st m false DiscardOrigin.played) s).discard =
      s.discard ++ ms.map (fun id => (⟨id, DiscardOrigin.played⟩ : DiscardEntry)) ∧
    (ms.foldl (fun st m => discardGroupFromHand st m false DiscardOrigin.played) s).deck =
      s.deck := by
  induction ms generalizing s with
  | nil =>
    refine ⟨fun id => by simp, by simp, rfl⟩
  | cons m rest ih =>
    have hm : 1 ≤ handCount s m := hpres m (by simp)
    obtain ⟨e, hf⟩ := find_of_filter_pos s.hand m hm
    have heid : e.id = m := find_entry_id s.hand m e hf
    have hstate := discardGroupFromHand_single_some s m DiscardOrigin.played e hf
    have hrestnd : rest.Nodup := (List.nodup_cons.mp hnd).2
    have hmnotin : m ∉ rest := (List.nodup_cons.mp hnd).1
    have hcount_self :
        handCount (discardGroupFromHand s m false DiscardOrigin.played) m + 1 =
          handCount s m := by
      unfold handCount
      rw [hstate]
      exact eraseP_handCount_self s.hand m e hf
    have hcount_other : ∀ idO, ¬idO = m →
        handCount (discardGroupFromHand s m false DiscardOrigin.played) idO =
          handCount s idO := by
      intro idO hne
      unfold handCount
      rw [hstate]
      exact eraseP_handCount_other s.hand m idO hne
    have hpres1 : ∀ mq ∈ rest, 1 ≤
        handCount (discardGroupFromHand s m false DiscardOrigin.played) mq := by
      intro mq hmq
      rw [hcount_other mq (fun hh => hmnotin (hh ▸ hmq))]
      exact hpres mq (List.mem_cons_of_mem m hmq)
    have ihres := ih (discardGroupFromHand s m false DiscardOrigin.played) hrestnd hpres1
    have hfold : (m :: rest).foldl
        (fun st mq => discardGroupFromHand st mq false DiscardOrigin.played) s =
        rest.foldl (fun st mq => discardGroupFromHand st mq false DiscardOrigin.played)
          (discardGroupFromHand s m false DiscardOrigin.played) := rfl
    refine ⟨?_, ?_, ?_⟩
    · intro id
      rw [hfold, ihres.1 id]
      by_cases hid : id = m
      · subst hid
        have hnotin : id ∉ rest := hmnotin
        rw [if_neg hnotin, if_pos (List.mem_cons_self id rest)]
        omega
      · rw [hcount_other id hid]
        by_cases hin : id ∈ rest
        · rw [if_pos hin, if_pos (List.mem_cons_of_mem m hin)]
        · rw [if_neg hin, if_neg (by simp [hid, hin])]
    · rw [hfold, ihres.2.1, hstate]
      simp only [List.map_cons, heid]
      rw [List.append_assoc]
      rfl
    · rw [hfold, ihres.2.2, hstate]

/-- Claim C8: when `activePlay` has a base selected (and its base and
attached modifiers are present in the hand), `finalizePlay` moves
exactly one copy of the base card and exactly one copy of each
attached modifier — not all matching copies — from handZone to
discardZone tagged origin = played, leaves the deck untouched and
clears `activePlay`; with no active base it is a no-op that mutates
neither the zones nor `activePlay`. -/
theorem c8_finalize_play (s : DeckBuilderState) (b : String) (ms : List String)
    (hb : b ∉ ms) (hnd : ms.Nodup)
    (hpres : ∀ id ∈ b :: ms, 1 ≤ handCount s id) :
    ((finalizePlay s (some ⟨b, ms⟩)).2 = none ∧
      (finalizePlay s (some ⟨b, ms⟩)).1.discard =
        s.discard ++ (b :: ms).map (fun id => (⟨id, DiscardOrigin.played⟩ : DiscardEntry)) ∧
      (∀ id, handCount (finalizePlay s (some ⟨b, ms⟩)).1 id =
        handCount s id - (if id ∈ b :: ms then 1 else 0)) ∧
      (finalizePlay s (some ⟨b, ms⟩)).1.deck = s.deck) ∧
    finalizePlay s none = (s, none) := by
  have hnodup : (b :: ms).Nodup := List.nodup_cons.mpr ⟨hb, hnd⟩
  have hfold := finalize_fold (b :: ms) s hnodup hpres
  have heq : (finalizePlay s (some ⟨b, ms⟩)).1 =
      (b :: ms).foldl (fun st m => discardGroupFromHand st m false DiscardOrigin.played) s :=
    rfl
  refine ⟨⟨rfl, ?_, ?_, ?_⟩, rfl⟩
  · rw [heq]
    exact hfold.2.1
  · intro id
    rw [heq]
    exact hfold.1 id
  · rw [heq]
    exact hfold.2.2

/-- A locked session with one base card and one modifier card in hand. -/
def c8state : DeckBuilderState :=
  { sampleUnlocked with
    isLocked := true,
    hasBuiltDeck := true,
    hasShuffledDeck := true,
    hand := [⟨"B", HandState.unspent⟩, ⟨"M", HandState.unspent⟩] }

/-- Witness for `c8_finalize_play` at a concrete play of base "B" with
modifier "M". -/
theorem c8_finalize_play_witness :
    ((("B" : String) ∉ (["M"] : List String)) ∧ (["M"] : List String).Nodup ∧
      (∀ id ∈ ("B" :: ["M"] : List String), 1 ≤ handCount c8state id)) ∧
    (finalizePlay c8state (some ⟨"B", ["M"]⟩)).2 = none ∧
    (finalizePlay c8state (some ⟨"B", ["M"]⟩)).1.discard =
      c8state.discard ++
        ("B" :: ["M"]).map (fun id => (⟨id, DiscardOrigin.played⟩ : DiscardEntry)) :=
  ⟨⟨by decide, by decide, by decide⟩,
   (c8_finalize_play c8state "B" ["M"] (by decide) (by decide) (by decide)).1.1,
   (c8_finalize_play c8state "B" ["M"] (by decide) (by decide) (by decide)).1.2.1⟩
